import Mathlib

/-!
Verification of the `a-waves` animated line-grid component
(`src/js/noise.js`: class `Noise` and custom element `AWaves`).

JavaScript numbers are modelled as exact rationals (`ℚ`); the host `Math`
object's transcendental functions (`cos`, `sin`, `hypot`, `atan2`) are
modelled as an explicit parameter structure `JsMath`, so every definition
stays computable and the theorems hold for every implementation of those
host functions.  `Math.floor` is `Int.floor`, `Math.ceil` is `Int.ceil`,
`Math.round x` is `⌊x + 1/2⌋`, the JavaScript `%` operator on numbers is
truncated remainder (`jsFmod`).
-/

namespace Waves

/-- JavaScript `Math.trunc` on a rational: round toward zero. -/
def jsTrunc (q : ℚ) : ℤ :=
  if 0 ≤ q then ⌊q⌋ else -⌊-q⌋

/-- The JavaScript `%` operator on numbers: `a - b * trunc (a / b)`
(truncated remainder, exact over `ℚ`). -/
def jsFmod (a b : ℚ) : ℚ :=
  a - b * (jsTrunc (a / b) : ℚ)

/-- JavaScript `Math.round`: round half toward positive infinity. -/
def jsRound (q : ℚ) : ℤ :=
  ⌊q + 1 / 2⌋

/- ----------------------------------------------------------------
`class Noise` (src/js/noise.js, lines 13-102)
---------------------------------------------------------------- -/

/-- The fixed gradient list `this.grad3` (noise.js lines 15-19). -/
def grad3 : List (ℤ × ℤ × ℤ) :=
  [(1, 1, 0), (-1, 1, 0), (1, -1, 0), (-1, -1, 0),
   (1, 0, 1), (-1, 0, 1), (1, 0, -1), (-1, 0, -1),
   (0, 1, 1), (0, -1, 1), (0, 1, -1), (0, -1, -1)]

/-- `Noise.dot` (noise.js lines 47-49): only the first two gradient
components are used. -/
def dot (g : ℤ × ℤ × ℤ) (x y : ℚ) : ℚ :=
  (g.1 : ℚ) * x + (g.2.1 : ℚ) * y

/-- `Noise.fade` (noise.js lines 92-94): `6t^5 - 15t^4 + 10t^3`,
written exactly as in the source. -/
def fade (t : ℚ) : ℚ :=
  t * t * t * (t * (t * 6 - 15) + 10)

/-- `Noise.lerp` (noise.js lines 99-101). -/
def lerp (t a b : ℚ) : ℚ :=
  a + t * (b - a)

/-- The per-instance tables of a `Noise` object: the doubled permutation
table `this.perm` and `this.permMod12` (noise.js lines 36-41). -/
structure Noise where
  perm : List ℤ
  permMod12 : List ℤ
deriving DecidableEq

/-- One step of the linear-congruential update applied to the running
`seed` (noise.js lines 24 and 30): `(seed * 16807) % 2147483647`. -/
def lcg (s : ℚ) : ℚ :=
  jsFmod (s * 16807) 2147483647

/-- The table-fill loop (noise.js lines 22-26): `p[i] = floor(seed*256)`,
then `seed = (seed*16807) % 2147483647; seed = seed / 2147483647`,
for `i = 0..255`.  The accumulator carries `(seed, p)`. -/
def fillLoop : ℕ → ℚ × List ℤ → ℚ × List ℤ
  | 0, st => st
  | k + 1, (s, p) => fillLoop k (lcg s / 2147483647, p ++ [⌊s * 256⌋])

/-- The destructuring swap `[p[i], p[j]] = [p[j], p[i]]` (noise.js
line 32), reading both old values before writing. -/
def swapList (l : List ℤ) (i j : ℕ) : List ℤ :=
  (l.set i (l.getD j 0)).set j (l.getD i 0)

/-- The shuffle loop (noise.js lines 29-33): for `i = 255` down to `1`,
advance the seed by `lcg` and swap `p[i]` with
`p[⌊seed / 2147483647 * (i + 1)⌋]`.  `shuffleLoop k` performs the
iterations `i = k, k-1, ..., 1`; for a nonnegative seed the computed
index is nonnegative, so `Int.toNat` is faithful to the source. -/
def shuffleLoop : ℕ → ℚ × List ℤ → ℚ × List ℤ
  | 0, st => st
  | k + 1, (s, p) =>
    let s2 := lcg s
    let j := ⌊s2 / 2147483647 * ((k + 1 : ℕ) + 1 : ℚ)⌋
    shuffleLoop k (s2, swapList p (k + 1) j.toNat)

/-- The 256-entry base table `this.p` produced by the constructor
(noise.js lines 21-33): fill then shuffle. -/
def mkP (seed : ℚ) : List ℤ :=
  (shuffleLoop 255 (fillLoop 256 (seed, []))).2

/-- The `Noise` constructor (noise.js lines 14-42): doubles the base
table (`perm[i] = p[i & 255]` for `i < 512`, and for such `i` the mask
`i & 255` is `i % 256`) and precomputes `permMod12[i] = perm[i] % 12`
(JavaScript `%` on integers is truncated remainder, `Int.tmod`). -/
def mkNoise (seed : ℚ) : Noise :=
  let p := mkP seed
  let perm := (List.range 512).map (fun i => p.getD (i % 256) 0)
  { perm := perm, permMod12 := perm.map (fun e => Int.tmod e 12) }

/-- Gradient selected for a corner hash value `k`: `grad3[permMod12[k]]`
(noise.js lines 77-83).  Out-of-range accesses fall back to `(0,0,0)`,
which never occurs for tables built by `mkNoise`. -/
def cornerGrad (n : Noise) (k : ℤ) : ℤ × ℤ × ℤ :=
  grad3.getD (n.permMod12.getD k.toNat 0).toNat (0, 0, 0)

/-- The corner hash `A = perm[X] + Y` (noise.js line 69), where
`X = ⌊x⌋ & 255` and `Y = ⌊y⌋ & 255`. -/
def hashA (n : Noise) (x y : ℚ) : ℤ :=
  n.perm.getD (⌊x⌋ % 256).toNat 0 + ((⌊y⌋ % 256).toNat : ℤ)

/-- The corner hash `B = perm[X + 1] + Y` (noise.js line 70). -/
def hashB (n : Noise) (x y : ℚ) : ℤ :=
  n.perm.getD ((⌊x⌋ % 256).toNat + 1) 0 + ((⌊y⌋ % 256).toNat : ℤ)

/-- `Noise.perlin2` (noise.js lines 55-86): relative cell coordinates
`x - ⌊x⌋`, fade curves, four corner gradients, bilinear blend. -/
def perlin2 (n : Noise) (x y : ℚ) : ℚ :=
  lerp (fade (y - ⌊y⌋))
    (lerp (fade (x - ⌊x⌋))
      (dot (cornerGrad n (hashA n x y)) (x - ⌊x⌋) (y - ⌊y⌋))
      (dot (cornerGrad n (hashB n x y)) (x - ⌊x⌋ - 1) (y - ⌊y⌋)))
    (lerp (fade (x - ⌊x⌋))
      (dot (cornerGrad n (hashA n x y + 1)) (x - ⌊x⌋) (y - ⌊y⌋ - 1))
      (dot (cornerGrad n (hashB n x y + 1)) (x - ⌊x⌋ - 1) (y - ⌊y⌋ - 1)))

/- ----------------------------------------------------------------
Range of `perlin2` (claim C1 machinery)
---------------------------------------------------------------- -/

/-- Both used components of every gradient `cornerGrad` can return
(the twelve entries of `grad3` and the default) lie in `[-1, 1]`. -/
lemma cornerGrad_bounds (n : Noise) (k : ℤ) :
    |((cornerGrad n k).1 : ℚ)| ≤ 1 ∧ |((cornerGrad n k).2.1 : ℚ)| ≤ 1 := by
  unfold cornerGrad
  rcases lt_or_ge (n.permMod12.getD k.toNat 0).toNat grad3.length with h | h
  · have h12 : (n.permMod12.getD k.toNat 0).toNat < 12 := by
      simpa [grad3] using h
    interval_cases (n.permMod12.getD k.toNat 0).toNat <;> decide
  · rw [List.getD_eq_default _ _ h]
    norm_num

/-- For `0 ≤ t`, the fade polynomial is nonnegative. -/
lemma fade_nonneg {t : ℚ} (ht : 0 ≤ t) : 0 ≤ fade t := by
  unfold fade
  nlinarith [mul_nonneg (mul_nonneg (mul_nonneg ht ht) ht) (sq_nonneg (t - 5/4)),
    mul_nonneg (mul_nonneg ht ht) ht]

/-- For `t ≤ 1`, the fade polynomial is at most one. -/
lemma fade_le_one {t : ℚ} (ht : t ≤ 1) : fade t ≤ 1 := by
  unfold fade
  have h1 : 0 ≤ 1 - t := by linarith
  nlinarith [mul_nonneg (mul_nonneg (mul_nonneg h1 h1) h1) (sq_nonneg (t + 1/4)),
    mul_nonneg (mul_nonneg h1 h1) h1]

/-- Key balance inequality: the weight a coordinate contributes to the
bilinear bound is at most `1/2`:
`(1 - fade t) * t + fade t * (1 - t) ≤ 1/2` for every `t`. -/
lemma fade_balance (t : ℚ) : (1 - fade t) * t + fade t * (1 - t) ≤ 1 / 2 := by
  unfold fade
  nlinarith [mul_nonneg (sq_nonneg (t - 1/2)) (sq_nonneg (t^2 - t - 1/6)),
    sq_nonneg (t - 1/2)]

/-- Triangle bound for `dot` against componentwise bounds. -/
lemma dot_abs_le (g : ℤ × ℤ × ℤ) (x y a b : ℚ)
    (hg1 : |(g.1 : ℚ)| ≤ 1) (hg2 : |(g.2.1 : ℚ)| ≤ 1)
    (hx : |x| ≤ a) (hy : |y| ≤ b) : |dot g x y| ≤ a + b := by
  unfold dot
  have h0a : (0 : ℚ) ≤ a := le_trans (abs_nonneg x) hx
  have h0b : (0 : ℚ) ≤ b := le_trans (abs_nonneg y) hy
  calc |(g.1 : ℚ) * x + (g.2.1 : ℚ) * y|
      ≤ |(g.1 : ℚ) * x| + |(g.2.1 : ℚ) * y| := abs_add _ _
    _ = |(g.1 : ℚ)| * |x| + |(g.2.1 : ℚ)| * |y| := by rw [abs_mul, abs_mul]
    _ ≤ 1 * a + 1 * b := by
        gcongr
    _ = a + b := by ring

/-- Interpolation bound: `lerp` with weight in `[0,1]` is bounded by the
convex combination of the endpoint bounds. -/
lemma lerp_abs_le (t a b A B : ℚ) (ht0 : 0 ≤ t) (ht1 : t ≤ 1)
    (ha : |a| ≤ A) (hb : |b| ≤ B) :
    |lerp t a b| ≤ (1 - t) * A + t * B := by
  have hlerp : lerp t a b = (1 - t) * a + t * b := by unfold lerp; ring
  have h1t : (0 : ℚ) ≤ 1 - t := by linarith
  calc |lerp t a b| = |(1 - t) * a + t * b| := by rw [hlerp]
    _ ≤ |(1 - t) * a| + |t * b| := abs_add _ _
    _ = (1 - t) * |a| + t * |b| := by
        rw [abs_mul, abs_mul, abs_of_nonneg h1t, abs_of_nonneg ht0]
    _ ≤ (1 - t) * A + t * B := by gcongr

/-- The absolute value of `perlin2` is at most one, for every table. -/
lemma abs_perlin2_le_one (n : Noise) (x y : ℚ) : |perlin2 n x y| ≤ 1 := by
  have hx0 : (0 : ℚ) ≤ x - ⌊x⌋ := Int.fract_nonneg x
  have hx1 : x - (⌊x⌋ : ℚ) < 1 := Int.fract_lt_one x
  have hy0 : (0 : ℚ) ≤ y - ⌊y⌋ := Int.fract_nonneg y
  have hy1 : y - (⌊y⌋ : ℚ) < 1 := Int.fract_lt_one y
  set xf : ℚ := x - ⌊x⌋ with hxf
  set yf : ℚ := y - ⌊y⌋ with hyf
  have hu0 : 0 ≤ fade xf := fade_nonneg hx0
  have hu1 : fade xf ≤ 1 := fade_le_one (le_of_lt hx1)
  have hv0 : 0 ≤ fade yf := fade_nonneg hy0
  have hv1 : fade yf ≤ 1 := fade_le_one (le_of_lt hy1)
  obtain ⟨h00a, h00b⟩ := cornerGrad_bounds n (hashA n x y)
  obtain ⟨h10a, h10b⟩ := cornerGrad_bounds n (hashB n x y)
  obtain ⟨h01a, h01b⟩ := cornerGrad_bounds n (hashA n x y + 1)
  obtain ⟨h11a, h11b⟩ := cornerGrad_bounds n (hashB n x y + 1)
  have haxf : |xf| ≤ xf := le_of_eq (abs_of_nonneg hx0)
  have hayf : |yf| ≤ yf := le_of_eq (abs_of_nonneg hy0)
  have haxf1 : |xf - 1| ≤ 1 - xf := by
    rw [abs_of_nonpos (by linarith)]; linarith
  have hayf1 : |yf - 1| ≤ 1 - yf := by
    rw [abs_of_nonpos (by linarith)]; linarith
  have hd00 : |dot (cornerGrad n (hashA n x y)) xf yf| ≤ xf + yf :=
    dot_abs_le _ _ _ _ _ h00a h00b haxf hayf
  have hd10 : |dot (cornerGrad n (hashB n x y)) (xf - 1) yf| ≤ (1 - xf) + yf :=
    dot_abs_le _ _ _ _ _ h10a h10b haxf1 hayf
  have hd01 : |dot (cornerGrad n (hashA n x y + 1)) xf (yf - 1)| ≤ xf + (1 - yf) :=
    dot_abs_le _ _ _ _ _ h01a h01b haxf hayf1
  have hd11 : |dot (cornerGrad n (hashB n x y + 1)) (xf - 1) (yf - 1)| ≤
      (1 - xf) + (1 - yf) :=
    dot_abs_le _ _ _ _ _ h11a h11b haxf1 hayf1
  have hrow1 : |lerp (fade xf) (dot (cornerGrad n (hashA n x y)) xf yf)
      (dot (cornerGrad n (hashB n x y)) (xf - 1) yf)| ≤
      (1 - fade xf) * (xf + yf) + fade xf * ((1 - xf) + yf) :=
    lerp_abs_le _ _ _ _ _ hu0 hu1 hd00 hd10
  have hrow2 : |lerp (fade xf) (dot (cornerGrad n (hashA n x y + 1)) xf (yf - 1))
      (dot (cornerGrad n (hashB n x y + 1)) (xf - 1) (yf - 1))| ≤
      (1 - fade xf) * (xf + (1 - yf)) + fade xf * ((1 - xf) + (1 - yf)) :=
    lerp_abs_le _ _ _ _ _ hu0 hu1 hd01 hd11
  have htotal := lerp_abs_le (fade yf) _ _ _ _ hv0 hv1 hrow1 hrow2
  have hbx := fade_balance xf
  have hby := fade_balance yf
  have hkey : (1 - fade yf) * ((1 - fade xf) * (xf + yf) + fade xf * ((1 - xf) + yf)) +
      fade yf * ((1 - fade xf) * (xf + (1 - yf)) + fade xf * ((1 - xf) + (1 - yf))) =
      ((1 - fade xf) * xf + fade xf * (1 - xf)) +
      ((1 - fade yf) * yf + fade yf * (1 - yf)) := by ring
  unfold perlin2
  rw [← hxf, ← hyf]
  calc |lerp (fade yf)
        (lerp (fade xf) (dot (cornerGrad n (hashA n x y)) xf yf)
          (dot (cornerGrad n (hashB n x y)) (xf - 1) yf))
        (lerp (fade xf) (dot (cornerGrad n (hashA n x y + 1)) xf (yf - 1))
          (dot (cornerGrad n (hashB n x y + 1)) (xf - 1) (yf - 1)))| ≤
      (1 - fade yf) * ((1 - fade xf) * (xf + yf) + fade xf * ((1 - xf) + yf)) +
        fade yf * ((1 - fade xf) * (xf + (1 - yf)) + fade xf * ((1 - xf) + (1 - yf))) :=
        htotal
    _ = ((1 - fade xf) * xf + fade xf * (1 - xf)) +
        ((1 - fade yf) * yf + fade yf * (1 - yf)) := hkey
    _ ≤ 1 / 2 + 1 / 2 := add_le_add hbx hby
    _ = 1 := by norm_num

/-- C1: for every construction seed in `[0,1)` and every pair `(x, y)`,
`perlin2` returns a value in the closed interval `[-1, 1]`. -/
theorem c1_perlin2_range (seed : ℚ) (hs0 : 0 ≤ seed) (hs1 : seed < 1)
    (x y : ℚ) :
    -1 ≤ perlin2 (mkNoise seed) x y ∧ perlin2 (mkNoise seed) x y ≤ 1 :=
  abs_le.mp (abs_perlin2_le_one (mkNoise seed) x y)

/-- Witness for C1 at seed `0` and input `(3/2, 1/4)`. -/
theorem c1_perlin2_range_witness :
    -1 ≤ perlin2 (mkNoise 0) (3/2) (1/4) ∧ perlin2 (mkNoise 0) (3/2) (1/4) ≤ 1 :=
  c1_perlin2_range 0 (by norm_num) (by norm_num) (3/2) (1/4)

/- ----------------------------------------------------------------
Permutation-table invariants (claims C5 and C3)
---------------------------------------------------------------- -/

/-- For `0 ≤ a` and `0 < b`, the JavaScript remainder lies in `[0, b)`. -/
lemma jsFmod_nonneg_lt {a b : ℚ} (ha : 0 ≤ a) (hb : 0 < b) :
    0 ≤ jsFmod a b ∧ jsFmod a b < b := by
  unfold jsFmod jsTrunc
  rw [if_pos (div_nonneg ha hb.le)]
  have h1 : (0 : ℚ) ≤ a / b - ⌊a / b⌋ := Int.fract_nonneg (a / b)
  have h2 : a / b - (⌊a / b⌋ : ℚ) < 1 := Int.fract_lt_one (a / b)
  have key : a - b * (⌊a / b⌋ : ℚ) = b * (a / b - ⌊a / b⌋) := by
    field_simp
  rw [key]
  constructor
  · exact mul_nonneg hb.le h1
  · have h3 : b * (a / b - ⌊a / b⌋) < b * 1 := mul_lt_mul_of_pos_left h2 hb
    simpa using h3

/-- The linear-congruential step maps a nonnegative seed into
`[0, 2147483647)`. -/
lemma lcg_nonneg_lt {s : ℚ} (hs : 0 ≤ s) :
    0 ≤ lcg s ∧ lcg s < 2147483647 :=
  jsFmod_nonneg_lt (mul_nonneg hs (by norm_num)) (by norm_num)

/-- `getD` returns an element of the list or the default. -/
lemma getD_mem_or (l : List ℤ) (n : ℕ) (d : ℤ) :
    l.getD n d ∈ l ∨ l.getD n d = d := by
  rcases lt_or_ge n l.length with h | h
  · left
    rw [List.getD_eq_getElem?_getD, List.getElem?_eq_getElem h]
    exact List.getElem_mem h
  · right
    exact List.getD_eq_default l d h

/-- Every element of a swapped list is an element of the original list
or the out-of-range default `0`. -/
lemma swapList_mem {l : List ℤ} {i j : ℕ} {e : ℤ}
    (he : e ∈ swapList l i j) : e ∈ l ∨ e = 0 := by
  unfold swapList at he
  rcases List.mem_or_eq_of_mem_set he with h1 | h1
  · rcases List.mem_or_eq_of_mem_set h1 with h2 | h2
    · exact Or.inl h2
    · subst h2
      exact getD_mem_or l j 0
  · subst h1
    exact getD_mem_or l i 0

/-- Fill-loop invariant: starting from a seed in `[0, 1)` and a list of
entries in `[0, 255]`, every entry produced by `fillLoop` is in
`[0, 255]`. -/
lemma fillLoop_entries : ∀ (k : ℕ) (s : ℚ) (p : List ℤ),
    0 ≤ s → s < 1 → (∀ e ∈ p, 0 ≤ e ∧ e ≤ 255) →
    ∀ e ∈ (fillLoop k (s, p)).2, 0 ≤ e ∧ e ≤ 255 := by
  intro k
  induction k with
  | zero => intro s p _ _ hp; exact hp
  | succ k ih =>
    intro s p hs0 hs1 hp
    have hlcg := lcg_nonneg_lt hs0
    have hnext0 : 0 ≤ lcg s / 2147483647 := div_nonneg hlcg.1 (by norm_num)
    have hnext1 : lcg s / 2147483647 < 1 := by
      rw [div_lt_one (by norm_num)]
      exact hlcg.2
    have hfloor0 : (0 : ℤ) ≤ ⌊s * 256⌋ :=
      Int.floor_nonneg.mpr (mul_nonneg hs0 (by norm_num))
    have hfloor1 : ⌊s * 256⌋ ≤ 255 := by
      have : ⌊s * 256⌋ < 256 := Int.floor_lt.mpr (by push_cast; nlinarith)
      omega
    have hp2 : ∀ e ∈ p ++ [⌊s * 256⌋], 0 ≤ e ∧ e ≤ 255 := by
      intro e he
      rcases List.mem_append.mp he with h | h
      · exact hp e h
      · rw [List.mem_singleton.mp h]
        exact ⟨hfloor0, hfloor1⟩
    exact ih (lcg s / 2147483647) (p ++ [⌊s * 256⌋]) hnext0 hnext1 hp2

/-- Shuffle-loop invariant: the shuffle only rearranges entries (with
the in-range default `0` for out-of-range reads), so entry bounds are
preserved. -/
lemma shuffleLoop_entries : ∀ (k : ℕ) (s : ℚ) (p : List ℤ),
    (∀ e ∈ p, 0 ≤ e ∧ e ≤ 255) →
    ∀ e ∈ (shuffleLoop k (s, p)).2, 0 ≤ e ∧ e ≤ 255 := by
  intro k
  induction k with
  | zero => intro s p hp; exact hp
  | succ k ih =>
    intro s p hp
    have hswap : ∀ e ∈ swapList p (k + 1)
        (⌊lcg s / 2147483647 * ((k + 1 : ℕ) + 1 : ℚ)⌋).toNat,
        0 ≤ e ∧ e ≤ 255 := by
      intro e he
      rcases swapList_mem he with h | h
      · exact hp e h
      · rw [h]; norm_num
    simpa only [shuffleLoop] using ih (lcg s) _ hswap

/-- All 256 base-table entries are in `[0, 255]` for a seed in `[0, 1)`. -/
lemma mkP_entries {seed : ℚ} (h0 : 0 ≤ seed) (h1 : seed < 1) :
    ∀ e ∈ mkP seed, 0 ≤ e ∧ e ≤ 255 := by
  unfold mkP
  rcases hfp : fillLoop 256 (seed, []) with ⟨s2, p2⟩
  have hp2 : ∀ e ∈ p2, 0 ≤ e ∧ e ≤ 255 := by
    have := fillLoop_entries 256 seed [] h0 h1 (by intro e he; cases he)
    rw [hfp] at this
    exact this
  exact shuffleLoop_entries 255 s2 p2 hp2

/-- `getD` into the map of a range evaluates the mapped function. -/
lemma getD_map_range {α : Type} (f : ℕ → α) {n k : ℕ} (h : k < n) (d : α) :
    ((List.range n).map f).getD k d = f k := by
  rw [List.getD_eq_getElem?_getD, List.getElem?_map, List.getElem?_range h]
  rfl

set_option maxRecDepth 8000 in
/-- C5 (amended): for every seed in `[0, 1)`, the constructed table has
512 entries, entry `i + 256` equals entry `i` for `i < 256` (the
doubling), and every entry is an integer in `[0, 255]`.  (The base
entries need not be a permutation of `0..255`; see the
counterexample.) -/
theorem c5_perm_table (seed : ℚ) (h0 : 0 ≤ seed) (h1 : seed < 1) :
    (mkNoise seed).perm.length = 512 ∧
    (∀ i < 256, (mkNoise seed).perm.getD (i + 256) 0 =
      (mkNoise seed).perm.getD i 0) ∧
    (∀ e ∈ (mkNoise seed).perm, 0 ≤ e ∧ e ≤ 255) := by
  refine ⟨?_, ?_, ?_⟩
  · simp only [mkNoise]
    rw [List.length_map, List.length_range]
  · intro i hi
    simp only [mkNoise]
    rw [getD_map_range _ (show i + 256 < 512 by omega) 0,
        getD_map_range _ (show i < 512 by omega) 0]
    congr 1
    omega
  · intro e he
    simp only [mkNoise, List.mem_map, List.mem_range] at he
    obtain ⟨i, _, rfl⟩ := he
    rcases getD_mem_or (mkP seed) (i % 256) 0 with h | h
    · exact mkP_entries h0 h1 _ h
    · rw [h]; norm_num

/-- Witness for C5 at seed `0`. -/
theorem c5_perm_table_witness : (mkNoise 0).perm.length = 512 :=
  (c5_perm_table 0 (by norm_num) (by norm_num)).1

/-- The LCG step fixes zero. -/
lemma lcg_zero : lcg 0 = 0 := by
  unfold lcg jsFmod jsTrunc
  norm_num

/-- With seed `0`, the fill loop appends only zero entries. -/
lemma fillLoop_zero : ∀ (k : ℕ) (p : List ℤ),
    fillLoop k (0, p) = (0, p ++ List.replicate k 0) := by
  intro k
  induction k with
  | zero => intro p; simp [fillLoop]
  | succ k ih =>
    intro p
    have hstep : fillLoop (k + 1) (0, p) =
        fillLoop k (lcg 0 / 2147483647, p ++ [⌊(0 : ℚ) * 256⌋]) := rfl
    rw [hstep, lcg_zero]
    norm_num [ih, List.replicate_succ, List.append_assoc]

/-- Setting an entry of a constant list to the same constant is a
no-op. -/
lemma set_replicate_self (n i : ℕ) :
    (List.replicate n (0 : ℤ)).set i 0 = List.replicate n 0 := by
  induction n generalizing i with
  | zero => simp
  | succ n ih =>
    cases i with
    | zero => simp [List.replicate_succ]
    | succ i => simp [List.replicate_succ, ih]

/-- `getD` on a constant-zero list returns zero. -/
lemma getD_replicate (n j : ℕ) :
    (List.replicate n (0 : ℤ)).getD j 0 = 0 := by
  rcases getD_mem_or (List.replicate n 0) j 0 with h | h
  · exact List.eq_of_mem_replicate h
  · exact h

/-- Swapping inside a constant-zero list is a no-op. -/
lemma swapList_replicate (n i j : ℕ) :
    swapList (List.replicate n (0 : ℤ)) i j = List.replicate n 0 := by
  unfold swapList
  rw [getD_replicate, getD_replicate, set_replicate_self, set_replicate_self]

/-- With seed `0`, the shuffle loop never changes the table. -/
lemma shuffleLoop_zero : ∀ (k : ℕ),
    shuffleLoop k (0, List.replicate 256 (0 : ℤ)) =
      (0, List.replicate 256 0) := by
  intro k
  induction k with
  | zero => rfl
  | succ k ih =>
    have hstep : shuffleLoop (k + 1) (0, List.replicate 256 (0 : ℤ)) =
        shuffleLoop k (lcg 0, swapList (List.replicate 256 0) (k + 1)
          (⌊lcg 0 / 2147483647 * ((k + 1 : ℕ) + 1 : ℚ)⌋).toNat) := rfl
    rw [hstep, lcg_zero, swapList_replicate]
    exact ih

/-- With seed `0`, every base-table entry is `0`. -/
lemma mkP_zero : mkP 0 = List.replicate 256 0 := by
  unfold mkP
  rw [fillLoop_zero, List.nil_append, shuffleLoop_zero]

/-- C5 counterexample: at seed `0` (a valid seed in `[0, 1)`), the 256
base entries are NOT a permutation of `0..255` — the value `1` never
occurs. -/
theorem c5_counterexample :
    ¬ (mkP 0).Perm ((List.range 256).map Int.ofNat) := by
  intro h
  have h1 : (1 : ℤ) ∈ mkP 0 := by
    refine h.mem_iff.mpr ?_
    simp only [List.mem_map, List.mem_range]
    exact ⟨1, by norm_num, rfl⟩
  rw [mkP_zero] at h1
  have := List.eq_of_mem_replicate h1
  norm_num at this

/-- C3: the generator is deterministic — equal seeds give equal
permutation tables, and `perlin2` is a pure function of the table and
the input coordinates, so outputs agree across instances and across
repeated calls. -/
theorem c3_determinism (s1 s2 : ℚ) (h : s1 = s2) :
    mkNoise s1 = mkNoise s2 ∧
    ∀ x y : ℚ, perlin2 (mkNoise s1) x y = perlin2 (mkNoise s2) x y := by
  subst h
  exact ⟨rfl, fun x y => rfl⟩

/-- Witness for C3 at seed `0`. -/
theorem c3_determinism_witness : mkNoise 0 = mkNoise 0 :=
  (c3_determinism 0 0 rfl).1

/- ----------------------------------------------------------------
`AWaves.setLines` — the point grid (noise.js lines 253-306)
---------------------------------------------------------------- -/

/-- A point's per-frame wave offset `point.wave` (noise.js line 287). -/
structure WaveOff where
  x : ℚ
  y : ℚ
deriving DecidableEq

/-- A point's persistent cursor-physics state `point.cursor`
(noise.js line 288). -/
structure Cursor where
  x : ℚ
  y : ℚ
  vx : ℚ
  vy : ℚ
deriving DecidableEq

/-- A grid point (noise.js lines 284-289). -/
structure Point where
  x : ℚ
  y : ℚ
  wave : WaveOff
  cursor : Cursor
deriving DecidableEq

/-- Horizontal spacing between lines (noise.js line 264). -/
def xGap : ℚ := 12

/-- Vertical spacing between points on a line (noise.js line 265). -/
def yGap : ℚ := 36

/-- `totalLines = Math.ceil(oWidth / xGap)` with `oWidth = width + 200`
(noise.js lines 268 and 272). -/
def totalLines (width : ℚ) : ℤ := ⌈(width + 200) / xGap⌉

/-- `totalPoints = Math.ceil(oHeight / yGap)` with `oHeight = height + 60`
(noise.js lines 269 and 273). -/
def totalPoints (height : ℚ) : ℤ := ⌈(height + 60) / yGap⌉

/-- `xStart = (width - xGap * totalLines) / 2` (noise.js line 276). -/
def xStart (width : ℚ) : ℚ := (width - xGap * totalLines width) / 2

/-- `yStart = (height - yGap * totalPoints) / 2` (noise.js line 277). -/
def yStart (height : ℚ) : ℚ := (height - yGap * totalPoints height) / 2

/-- The point created at grid position `(i, j)` (noise.js lines
284-289): wave offset and cursor state start at zero. -/
def newPoint (w h : ℚ) (i j : ℕ) : Point :=
  { x := xStart w + xGap * i
    y := yStart h + yGap * j
    wave := ⟨0, 0⟩
    cursor := ⟨0, 0, 0, 0⟩ }

/-- `AWaves.setLines` (noise.js lines 253-306): the nested loops run
`for (i = 0; i <= totalLines; i++)` and `for (j = 0; j <= totalPoints;
j++)` — both bounds INCLUSIVE — so a nonnegative `totalLines` yields
`totalLines + 1` lines of `totalPoints + 1` points; a negative bound
yields no iterations. -/
def setLines (w h : ℚ) : List (List Point) :=
  (List.range (totalLines w + 1).toNat).map (fun i =>
    (List.range (totalPoints h + 1).toNat).map (fun j => newPoint w h i j))

/-- For a positive width the line bound is positive. -/
lemma totalLines_pos {w : ℚ} (hw : 0 < w) : 0 < totalLines w := by
  unfold totalLines xGap
  exact Int.ceil_pos.mpr (div_pos (by linarith) (by norm_num))

/-- For a positive height the point bound is positive. -/
lemma totalPoints_pos {h : ℚ} (hh : 0 < h) : 0 < totalPoints h := by
  unfold totalPoints yGap
  exact Int.ceil_pos.mpr (div_pos (by linarith) (by norm_num))

/-- C2 (amended): for `w, h > 0`, the grid holds exactly
`⌈(w+200)/12⌉ + 1` lines (one more than the claim's `⌈(w+200)/12⌉`,
because the construction loop bound is inclusive), and every line holds
the same number of points, exactly `⌈(h+60)/36⌉ + 1`. -/
theorem c2_grid_dimensions (w h : ℚ) (hw : 0 < w) (hh : 0 < h) :
    (setLines w h).length = (⌈(w + 200) / 12⌉).toNat + 1 ∧
    ∀ l ∈ setLines w h, l.length = (⌈(h + 60) / 36⌉).toNat + 1 := by
  have hl := totalLines_pos hw
  have hp := totalPoints_pos hh
  constructor
  · rw [setLines, List.length_map, List.length_range]
    unfold totalLines xGap at hl ⊢
    omega
  · intro l hl2
    simp only [setLines, List.mem_map, List.mem_range] at hl2
    obtain ⟨i, _, rfl⟩ := hl2
    rw [List.length_map, List.length_range]
    unfold totalPoints yGap at hp ⊢
    omega

/-- Witness for C2 at `w = 1000`, `h = 800`. -/
theorem c2_grid_dimensions_witness :
    (setLines 1000 800).length = (⌈((1000 : ℚ) + 200) / 12⌉).toNat + 1 :=
  (c2_grid_dimensions 1000 800 (by norm_num) (by norm_num)).1

/-- C2 counterexample: at `w = 1000`, `h = 800` the grid holds 101
lines while `⌈(1000+200)/12⌉ = 100` — the claim's count is off by
one. -/
theorem c2_counterexample :
    (setLines 1000 800).length = 101 ∧ ⌈((1000 : ℚ) + 200) / 12⌉ = 100 := by
  have hceil : ⌈((1000 : ℚ) + 200) / 12⌉ = 100 := by norm_num
  constructor
  · rw [setLines, List.length_map, List.length_range]
    rw [totalLines]
    unfold xGap
    rw [hceil]
    rfl
  · exact hceil

/-- C8: immediately after a rebuild, every point of the new grid has
cursor state zero on all four components — no prior cursor influence
survives, since `setLines` replaces every line and every point. -/
theorem c8_cursor_reset (w h : ℚ) :
    ∀ l ∈ setLines w h, ∀ p ∈ l, p.cursor = ⟨0, 0, 0, 0⟩ := by
  intro l hl p hp
  simp only [setLines, List.mem_map, List.mem_range] at hl
  obtain ⟨i, _, rfl⟩ := hl
  simp only [List.mem_map, List.mem_range] at hp
  obtain ⟨j, _, rfl⟩ := hp
  rfl

/-- The number of lines in the `w = h = 0` grid is 18. -/
lemma setLines_zero_length : (setLines 0 0).length = 18 := by
  rw [setLines, List.length_map, List.length_range]
  have h17 : totalLines 0 = 17 := by
    rw [totalLines]
    unfold xGap
    rw [Int.ceil_eq_iff]
    norm_num
  rw [h17]
  rfl

/-- The point count of the `w = h = 0` grid's lines is 3 per line. -/
lemma totalPoints_zero : totalPoints 0 = 2 := by
  rw [totalPoints]
  unfold yGap
  rw [Int.ceil_eq_iff]
  norm_num

/-- Witness for C8: the corner point of the `w = h = 0` grid. -/
theorem c8_cursor_reset_witness : (newPoint 0 0 0 0).cursor = ⟨0, 0, 0, 0⟩ := by
  refine c8_cursor_reset 0 0
    ((List.range (totalPoints 0 + 1).toNat).map (fun j => newPoint 0 0 0 j))
    ?_ (newPoint 0 0 0 0) ?_
  · simp only [setLines, List.mem_map]
    refine ⟨0, ?_, rfl⟩
    rw [List.mem_range]
    have h17 : totalLines 0 = 17 := by
      rw [totalLines]
      unfold xGap
      rw [Int.ceil_eq_iff]
      norm_num
    omega
  · simp only [List.mem_map]
    refine ⟨0, ?_, rfl⟩
    rw [List.mem_range, totalPoints_zero]
    norm_num

/-- C9 (amended): with a zero or negative dimension, `setLines` still
performs only divisions by the nonzero constants 12, 36 and 2 and
produces well-defined rational coordinates for every point (no `NaN`),
but the grid is `(⌈(w+200)/12⌉ + 1)⁺` lines — NOT necessarily empty or
single-line (18 lines at `w = h = 0`, see the counterexample). -/
theorem c9_degenerate_grid (w h : ℚ) (hdeg : w ≤ 0 ∨ h ≤ 0) :
    (setLines w h).length = (totalLines w + 1).toNat ∧
    ∀ l ∈ setLines w h, l.length = (totalPoints h + 1).toNat ∧
      ∀ p ∈ l, ∃ i j : ℕ,
        p.x = xStart w + xGap * i ∧ p.y = yStart h + yGap * j ∧
        p.cursor = ⟨0, 0, 0, 0⟩ := by
  constructor
  · rw [setLines, List.length_map, List.length_range]
  · intro l hl
    simp only [setLines, List.mem_map, List.mem_range] at hl
    obtain ⟨i, _, rfl⟩ := hl
    constructor
    · rw [List.length_map, List.length_range]
    · intro p hp
      simp only [List.mem_map, List.mem_range] at hp
      obtain ⟨j, _, rfl⟩ := hp
      exact ⟨i, j, rfl, rfl, rfl⟩

/-- Witness for C9 at `w = h = 0`. -/
theorem c9_degenerate_grid_witness :
    (setLines 0 0).length = (totalLines 0 + 1).toNat :=
  (c9_degenerate_grid 0 0 (Or.inl le_rfl)).1

/-- C9 counterexample: at `w = h = 0` the grid has 18 lines — more
than one — refuting "empty or single-line". -/
theorem c9_counterexample :
    (setLines 0 0).length = 18 ∧ 1 < (setLines 0 0).length := by
  refine ⟨setLines_zero_length, ?_⟩
  rw [setLines_zero_length]
  norm_num

/- ----------------------------------------------------------------
Mouse state and the `AWaves` component state
(noise.js lines 124-248 and 415-456)
---------------------------------------------------------------- -/

/-- `this.mouse` (noise.js lines 134-145). -/
structure Mouse where
  x : ℚ
  y : ℚ
  lx : ℚ
  ly : ℚ
  sx : ℚ
  sy : ℚ
  v : ℚ
  vs : ℚ
  a : ℚ
  set : Bool
deriving DecidableEq

/-- The initial mouse state assigned in `connectedCallback`
(noise.js lines 134-145). -/
def initialMouse : Mouse :=
  { x := -10, y := 0, lx := 0, ly := 0, sx := 0, sy := 0,
    v := 0, vs := 0, a := 0, set := false }

/-- `AWaves.updateMousePosition` (noise.js lines 225-239): convert to
container-local coordinates (`bounding.left`, `bounding.top`,
`window.scrollY` are environment inputs), and snap the smoothed and
last positions to the raw position exactly when the `set` flag is still
false. -/
def updateMousePosition (left top scrollY px py : ℚ) (m : Mouse) : Mouse :=
  let mx := px - left
  let my := py - top + scrollY
  if m.set then { m with x := mx, y := my }
  else { m with x := mx, y := my, sx := mx, sy := my,
                lx := mx, ly := my, set := true }

/-- The host `Math` object's transcendental functions, passed as a
parameter of the embedding; the theorems below hold for every
implementation. -/
structure JsMath where
  cos : ℚ → ℚ
  sin : ℚ → ℚ
  hypot : ℚ → ℚ → ℚ
  atan2 : ℚ → ℚ → ℚ

/-- The mutable state of the `a-waves` element: mouse, grid lines,
noise instance, and cached bounding box (noise.js lines 128-165,
244-248). -/
structure AWaves where
  mouse : Mouse
  lines : List (List Point)
  noise : Noise
  boundingLeft : ℚ
  boundingTop : ℚ
  boundingWidth : ℚ
  boundingHeight : ℚ
deriving DecidableEq

/-- `connectedCallback` state construction (noise.js lines 128-165):
fresh mouse state, `setSize` caches the bounding box, `setLines` builds
the grid. -/
def connect (n : Noise) (left top w h : ℚ) : AWaves :=
  { mouse := initialMouse, lines := setLines w h, noise := n,
    boundingLeft := left, boundingTop := top,
    boundingWidth := w, boundingHeight := h }

/-- `AWaves.onResize` (noise.js lines 201-204): `setSize` re-reads the
bounding box from the environment, then `setLines` rebuilds the grid.
The mouse state is not touched. -/
def onResize (left top w h : ℚ) (s : AWaves) : AWaves :=
  { s with boundingLeft := left, boundingTop := top,
           boundingWidth := w, boundingHeight := h,
           lines := setLines w h }

/-- The component-level pointer update (mouse-move / touch-move
handlers, noise.js lines 209-220 feeding `updateMousePosition`). -/
def awavesUpdateMouse (scrollY px py : ℚ) (s : AWaves) : AWaves :=
  { s with
    mouse := updateMousePosition s.boundingLeft s.boundingTop
      scrollY px py s.mouse }

/-- C7 (amended): the snap of `(sx, sy)` and `(lx, ly)` to the raw
container-local pointer position happens exactly on the first pointer
update while the `set` flag is false — that is, only on the first
update after mount.  A grid rebuild (`onResize` → `setLines`) leaves
the mouse state, including the `set` flag, unchanged, so no snap
happens on the first update after a subsequent rebuild. -/
theorem c7_first_update_snap (left top scrollY px py : ℚ) (m : Mouse)
    (hset : m.set = false) :
    ((updateMousePosition left top scrollY px py m).sx =
        (updateMousePosition left top scrollY px py m).x ∧
      (updateMousePosition left top scrollY px py m).sy =
        (updateMousePosition left top scrollY px py m).y ∧
      (updateMousePosition left top scrollY px py m).lx =
        (updateMousePosition left top scrollY px py m).x ∧
      (updateMousePosition left top scrollY px py m).ly =
        (updateMousePosition left top scrollY px py m).y ∧
      (updateMousePosition left top scrollY px py m).set = true) ∧
    ∀ (s : AWaves) (l t w h : ℚ), (onResize l t w h s).mouse = s.mouse := by
  constructor
  · simp [updateMousePosition, hset]
  · intro s l t w h
    rfl

/-- Witness for C7: the very first pointer update after mount. -/
theorem c7_first_update_snap_witness :
    ((updateMousePosition 0 0 0 10 20 initialMouse).sx =
        (updateMousePosition 0 0 0 10 20 initialMouse).x ∧
      (updateMousePosition 0 0 0 10 20 initialMouse).sy =
        (updateMousePosition 0 0 0 10 20 initialMouse).y ∧
      (updateMousePosition 0 0 0 10 20 initialMouse).lx =
        (updateMousePosition 0 0 0 10 20 initialMouse).x ∧
      (updateMousePosition 0 0 0 10 20 initialMouse).ly =
        (updateMousePosition 0 0 0 10 20 initialMouse).y ∧
      (updateMousePosition 0 0 0 10 20 initialMouse).set = true) ∧
    ∀ (s : AWaves) (l t w h : ℚ), (onResize l t w h s).mouse = s.mouse :=
  c7_first_update_snap 0 0 0 10 20 initialMouse rfl

/-- An all-zero noise table, used as a test fixture below. -/
def noiseEmpty : Noise := ⟨[], []⟩

/-- C7 counterexample: pointer update at `(10, 20)` (which snaps), then
a rebuild via `onResize`, then a pointer update at `(50, 60)` — the
claim says this update, the first after the rebuild, snaps the
smoothed position to the raw position, but the smoothed `sx` stays `10`
while the raw `x` is `50`. -/
theorem c7_counterexample :
    (awavesUpdateMouse 0 50 60 (onResize 0 0 0 0
      (awavesUpdateMouse 0 10 20 (connect noiseEmpty 0 0 0 0)))).mouse.sx ≠
    (awavesUpdateMouse 0 50 60 (onResize 0 0 0 0
      (awavesUpdateMouse 0 10 20 (connect noiseEmpty 0 0 0 0)))).mouse.x := by
  norm_num [awavesUpdateMouse, onResize, connect, updateMousePosition,
    initialMouse]

/- ----------------------------------------------------------------
Per-frame physics: `movePoints` and `tick`
(noise.js lines 311-365 and 415-456)
---------------------------------------------------------------- -/

/-- The cursor influence radius `l = Math.max(175, mouse.vs)`
(noise.js line 335). -/
def influenceRadius (vs : ℚ) : ℚ := max 175 vs

/-- The per-point body of `AWaves.movePoints` (noise.js lines 315-363):
wave offset from noise, additive cursor influence inside the radius,
spring toward rest, friction, explicit-Euler integration, and the final
clamp of the cursor offset to `[-80, 80]` on both axes. -/
def updatePoint (M : JsMath) (n : Noise) (mouse : Mouse) (time : ℚ)
    (p : Point) : Point :=
  let noiseValue := perlin2 n ((p.x + time * 0.015) * 0.002)
    ((p.y + time * 0.008) * 0.002) * 12
  let dx := p.x - mouse.sx
  let dy := p.y - mouse.sy
  let d := M.hypot dx dy
  let l := influenceRadius mouse.vs
  let c0 := p.cursor
  let c1 : Cursor :=
    if d < l then
      let s := 1 - d / l
      let f := M.cos (d * 0.001) * s
      { c0 with
        vx := c0.vx + M.cos mouse.a * f * l * mouse.vs * 0.0006,
        vy := c0.vy + M.sin mouse.a * f * l * mouse.vs * 0.0006 }
    else c0
  let vx2 := (c1.vx + (0 - c1.x) * 0.004) * 0.92
  let vy2 := (c1.vy + (0 - c1.y) * 0.004) * 0.92
  let cx := c1.x + vx2 * 2
  let cy := c1.y + vy2 * 2
  { p with
    wave := { x := M.cos noiseValue * 28, y := M.sin noiseValue * 14 },
    cursor := { x := min 80 (max (-80) cx), y := min 80 (max (-80) cy),
                vx := vx2, vy := vy2 } }

/-- `AWaves.movePoints` (noise.js lines 311-365): update every point of
every line. -/
def movePoints (M : JsMath) (n : Noise) (mouse : Mouse) (time : ℚ)
    (lines : List (List Point)) : List (List Point) :=
  lines.map (fun pts => pts.map (updatePoint M n mouse time))

/-- The mouse part of `AWaves.tick` (noise.js lines 424-443):
exponential smoothing of the position, raw velocity from the raw
position delta, exponentially smoothed velocity capped at 100, update
of the last position, and the movement angle. -/
def tickMouse (M : JsMath) (m : Mouse) : Mouse :=
  let sx := m.sx + (m.x - m.sx) * 0.08
  let sy := m.sy + (m.y - m.sy) * 0.08
  let dx := m.x - m.lx
  let dy := m.y - m.ly
  let d := M.hypot dx dy
  let vs := min 100 (m.vs + (d - m.vs) * 0.1)
  { m with sx := sx, sy := sy, v := d, vs := vs,
           lx := m.x, ly := m.y, a := M.atan2 dy dx }

/-- `AWaves.tick` (noise.js lines 415-456), visible case: update the
mouse state, then `movePoints` with the just-updated mouse.
(`drawLines` only writes to the DOM and the CSS custom properties are
cosmetic outputs; the invisible case changes no state.) -/
def tick (M : JsMath) (time : ℚ) (s : AWaves) : AWaves :=
  let m := tickMouse M s.mouse
  { s with mouse := m, lines := movePoints M s.noise m time s.lines }

/-- Clamp bounds: `Math.min(80, Math.max(-80, z))` lies in `[-80, 80]`
for every `z`. -/
lemma clamp_bounds (z : ℚ) :
    -80 ≤ min 80 (max (-80) z) ∧ min 80 (max (-80) z) ≤ 80 :=
  ⟨le_min (by norm_num) (le_max_left _ _), min_le_left _ _⟩

/-- After `updatePoint`, both cursor components are in `[-80, 80]`,
whatever the prior point state, mouse state, noise table and host
`Math` functions. -/
lemma updatePoint_cursor_bounds (M : JsMath) (n : Noise) (mouse : Mouse)
    (time : ℚ) (p : Point) :
    -80 ≤ (updatePoint M n mouse time p).cursor.x ∧
    (updatePoint M n mouse time p).cursor.x ≤ 80 ∧
    -80 ≤ (updatePoint M n mouse time p).cursor.y ∧
    (updatePoint M n mouse time p).cursor.y ≤ 80 := by
  simp only [updatePoint]
  exact ⟨(clamp_bounds _).1, (clamp_bounds _).2,
    (clamp_bounds _).1, (clamp_bounds _).2⟩

/-- C4: after every tick — regardless of the pointer input sequence,
the mouse state, or how many ticks have already run — every point of
the grid has both cursor displacement components in `[-80, 80]`. -/
theorem c4_cursor_clamped (M : JsMath) (time : ℚ) (s : AWaves) :
    ∀ l ∈ (tick M time s).lines, ∀ p ∈ l,
      -80 ≤ p.cursor.x ∧ p.cursor.x ≤ 80 ∧
      -80 ≤ p.cursor.y ∧ p.cursor.y ≤ 80 := by
  intro l hl p hp
  simp only [tick, movePoints, List.mem_map] at hl
  obtain ⟨pts, _, rfl⟩ := hl
  simp only [List.mem_map] at hp
  obtain ⟨q, _, rfl⟩ := hp
  exact updatePoint_cursor_bounds M s.noise (tickMouse M s.mouse) time q

/-- A one-point test grid state. -/
def stateW : AWaves :=
  { mouse := initialMouse, lines := [[newPoint 0 0 0 0]],
    noise := noiseEmpty, boundingLeft := 0, boundingTop := 0,
    boundingWidth := 0, boundingHeight := 0 }

/-- An all-zero host `Math` implementation, used as a test fixture. -/
def mathZero : JsMath :=
  ⟨fun _ => 0, fun _ => 0, fun _ _ => 0, fun _ _ => 0⟩

/-- The single point of `stateW` after one tick. -/
def pointW : Point :=
  updatePoint mathZero noiseEmpty (tickMouse mathZero initialMouse) 0
    (newPoint 0 0 0 0)

/-- Witness for C4 on the one-point grid. -/
theorem c4_cursor_clamped_witness :
    -80 ≤ pointW.cursor.x ∧ pointW.cursor.x ≤ 80 ∧
    -80 ≤ pointW.cursor.y ∧ pointW.cursor.y ≤ 80 :=
  c4_cursor_clamped mathZero 0 stateW [pointW]
    (by simp [tick, movePoints, stateW, pointW])
    pointW (by simp)

/-- C10: after every tick the smoothed mouse velocity is at most 100,
so the influence radius `max(175, vs)` used by the point update of the
same frame is exactly 175 — it never actually grows with pointer
velocity. -/
theorem c10_radius_constant (M : JsMath) (time : ℚ) (s : AWaves) :
    (tick M time s).mouse.vs ≤ 100 ∧
    influenceRadius (tick M time s).mouse.vs = 175 := by
  have hvs : (tick M time s).mouse.vs ≤ 100 := by
    simp only [tick, tickMouse]
    exact min_le_left _ _
  refine ⟨hvs, ?_⟩
  rw [influenceRadius]
  exact max_eq_left (by linarith)

/-- Witness for C10 on the test state. -/
theorem c10_radius_constant_witness :
    (tick mathZero 0 stateW).mouse.vs ≤ 100 ∧
    influenceRadius (tick mathZero 0 stateW).mouse.vs = 175 :=
  c10_radius_constant mathZero 0 stateW

/- ----------------------------------------------------------------
Path serialization: `moved` and `drawLines`
(noise.js lines 370-410)
---------------------------------------------------------------- -/

/-- `AWaves.moved` (noise.js lines 370-381): final on-screen position =
base + wave + (cursor offset when `withCursorForce`), each coordinate
rounded to one decimal place by `Math.round(c * 10) / 10`. -/
def moved (p : Point) (withCursorForce : Bool) : ℚ × ℚ :=
  let cx := p.x + p.wave.x + (if withCursorForce then p.cursor.x else 0)
  let cy := p.y + p.wave.y + (if withCursorForce then p.cursor.y else 0)
  ((jsRound (cx * 10) : ℚ) / 10, (jsRound (cy * 10) : ℚ) / 10)

/-- One command of an SVG path string: `M x y` or `L x y`. -/
inductive PathCmd where
  | move (x y : ℚ)
  | line (x y : ℚ)
deriving DecidableEq

/-- Default for out-of-range point reads (never used on the grids the
component builds). -/
def defaultPoint : Point := ⟨0, 0, ⟨0, 0⟩, ⟨0, 0, 0, 0⟩⟩

/-- The per-line body of `AWaves.drawLines` (noise.js lines 389-408):
`d` starts with `M` at `moved(points[0], false)`, then the `forEach`
appends one `L` command for EVERY point (the first included), using
`moved(point, !isLast)` — the cursor offset is omitted exactly for the
last point. -/
def drawLine (points : List Point) : List PathCmd :=
  match points with
  | [] => []
  | p0 :: _ =>
    PathCmd.move (moved p0 false).1 (moved p0 false).2 ::
    (List.range points.length).map (fun i =>
      PathCmd.line
        (moved (points.getD i defaultPoint) (i != points.length - 1)).1
        (moved (points.getD i defaultPoint) (i != points.length - 1)).2)

/-- `AWaves.drawLines` (noise.js lines 386-410): one path per line. -/
def drawLines (s : AWaves) : List (List PathCmd) :=
  s.lines.map drawLine

/-- Every `moved` coordinate is an integer multiple of `1/10`. -/
lemma moved_coords (p : Point) (b : Bool) :
    ∃ a c : ℤ, moved p b = ((a : ℚ) / 10, (c : ℚ) / 10) := by
  refine ⟨jsRound ((p.x + p.wave.x + (if b then p.cursor.x else 0)) * 10),
          jsRound ((p.y + p.wave.y + (if b then p.cursor.y else 0)) * 10), ?_⟩
  rfl

set_option maxRecDepth 8000 in
/-- C6 (amended): for a nonempty line of `n` points, the rendered path
consists of a single move-to at the first point's cursor-less position
followed by exactly one line-to per point INCLUDING the first (`n`
line-to commands, one more than the claim's "one per subsequent
point"); the last point's position omits the cursor offset (base + wave
only), and every emitted coordinate is rounded to one decimal place (an
integer multiple of `1/10`). -/
theorem c6_path_commands (p0 : Point) (rest : List Point) :
    (drawLine (p0 :: rest)).length = (p0 :: rest).length + 1 ∧
    (drawLine (p0 :: rest)).getD 0 (PathCmd.move 0 0) =
      PathCmd.move (moved p0 false).1 (moved p0 false).2 ∧
    (∀ k : ℕ, k < (p0 :: rest).length → ∃ a b : ℚ,
      (drawLine (p0 :: rest)).getD (k + 1) (PathCmd.move 0 0) =
        PathCmd.line a b) ∧
    (drawLine (p0 :: rest)).getD (rest.length + 1) (PathCmd.move 0 0) =
      PathCmd.line
        (moved ((p0 :: rest).getD rest.length defaultPoint) false).1
        (moved ((p0 :: rest).getD rest.length defaultPoint) false).2 ∧
    (∀ c ∈ drawLine (p0 :: rest), ∃ a b : ℤ,
      c = PathCmd.move ((a : ℚ) / 10) ((b : ℚ) / 10) ∨
      c = PathCmd.line ((a : ℚ) / 10) ((b : ℚ) / 10)) := by
  refine ⟨?_, rfl, ?_, ?_, ?_⟩
  · simp only [drawLine, List.length_cons, List.length_map,
      List.length_range]
  · intro k hk
    rw [List.length_cons] at hk
    refine ⟨(moved ((p0 :: rest).getD k defaultPoint)
        (k != (p0 :: rest).length - 1)).1,
      (moved ((p0 :: rest).getD k defaultPoint)
        (k != (p0 :: rest).length - 1)).2, ?_⟩
    show ((PathCmd.move (moved p0 false).1 (moved p0 false).2 ::
      (List.range (p0 :: rest).length).map (fun i =>
        PathCmd.line
          (moved ((p0 :: rest).getD i defaultPoint)
            (i != (p0 :: rest).length - 1)).1
          (moved ((p0 :: rest).getD i defaultPoint)
            (i != (p0 :: rest).length - 1)).2)).getD (k + 1)
        (PathCmd.move 0 0)) = _
    rw [List.getD_cons_succ]
    rw [getD_map_range _ (show k < (p0 :: rest).length by
      rw [List.length_cons]; omega) (PathCmd.move 0 0)]
  · show ((PathCmd.move (moved p0 false).1 (moved p0 false).2 ::
      (List.range (p0 :: rest).length).map (fun i =>
        PathCmd.line
          (moved ((p0 :: rest).getD i defaultPoint)
            (i != (p0 :: rest).length - 1)).1
          (moved ((p0 :: rest).getD i defaultPoint)
            (i != (p0 :: rest).length - 1)).2)).getD (rest.length + 1)
        (PathCmd.move 0 0)) = _
    rw [List.getD_cons_succ]
    rw [getD_map_range _ (show rest.length < (p0 :: rest).length by
      rw [List.length_cons]; omega) (PathCmd.move 0 0)]
    simp only [List.length_cons, Nat.add_sub_cancel, bne_self_eq_false]
  · intro c hc
    simp only [drawLine, List.mem_cons, List.mem_map,
      List.mem_range] at hc
    rcases hc with h | ⟨i, _, h⟩
    · obtain ⟨a, b, hm⟩ := moved_coords p0 false
      exact ⟨a, b, Or.inl (by rw [h, hm])⟩
    · obtain ⟨a, b, hm⟩ := moved_coords ((p0 :: rest).getD i defaultPoint)
        (i != (p0 :: rest).length - 1)
      exact ⟨a, b, Or.inr (by rw [← h, hm])⟩

/-- Test points with distinct cursor offsets. -/
def ptA : Point := ⟨0, 0, ⟨0, 0⟩, ⟨5, 0, 0, 0⟩⟩

/-- Second test point. -/
def ptB : Point := ⟨10, 0, ⟨0, 0⟩, ⟨7, 0, 0, 0⟩⟩

/-- Witness for C6 on a concrete two-point line. -/
theorem c6_path_commands_witness :
    (drawLine [ptA, ptB]).length = [ptA, ptB].length + 1 :=
  (c6_path_commands ptA [ptB]).1

/-- C6 counterexample: a two-point line yields THREE path commands
(one `M` plus one `L` per point), not the two (one `M` plus one `L`
per subsequent point) the claim describes. -/
theorem c6_counterexample :
    (drawLine [ptA, ptB]).length = 3 ∧ (drawLine [ptA, ptB]).length ≠ 2 := by
  have h3 : (drawLine [ptA, ptB]).length = 3 := by
    simp [drawLine]
  exact ⟨h3, by rw [h3]; norm_num⟩

end Waves
